import Mathlib

/-!
Verification development for the Secure Hospital Patient Management and
Billing System repository (`crypto_utils.py`, `hospital_db_setup.py`,
`app.py`).

The Python source is shallowly embedded:
* byte strings (`bytes`, base64 text) become `List Nat` with every entry
  `< 256`; a Python `str` holding sensitive data is represented by its
  UTF-8 byte sequence (Python's `str.encode("utf-8")` /
  `bytes.decode("utf-8")` pair is a bijection between strings and their
  valid encodings, so nothing is lost by working at the byte level);
* the AES-256-GCM cipher that `crypto_utils.py` obtains from
  `Crypto.Cipher.AES` is embedded in full (key schedule, rounds, GHASH,
  counter mode) following NIST FIPS-197 and SP 800-38D, which is the
  algorithm pycryptodome implements;
* the fresh nonce that `encrypt_value` draws via `get_random_bytes(12)`
  is made an explicit argument, which is the standard way to model a
  random source;
* database work is modelled by explicit state passing: table rows are
  structures, `cursor.execute` appends pending writes, `commit` makes
  them visible, and an exception before `commit` discards them.
-/

set_option maxRecDepth 4000000

set_option maxHeartbeats 2000000

namespace Hospital

/-! ## Bytes -/

/-- Interpret a big-endian byte list as a natural number. -/
def bytesToNat (bs : List Nat) : Nat :=
  bs.foldl (fun acc b => acc * 256 + b) 0

/-- The `n`-byte big-endian encoding of `x % 256^n`. -/
def natToBytes : Nat → Nat → List Nat
  | 0, _ => []
  | n + 1, x => natToBytes n (x / 256) ++ [x % 256]

theorem natToBytes_length (n x : Nat) : (natToBytes n x).length = n := by
  induction n generalizing x with
  | zero => rfl
  | succ n ih => simp [natToBytes, ih]

theorem natToBytes_lt (n x : Nat) : ∀ b ∈ natToBytes n x, b < 256 := by
  induction n generalizing x with
  | zero => intro b hb; simp [natToBytes] at hb
  | succ n ih =>
    intro b hb
    simp only [natToBytes, List.mem_append, List.mem_singleton] at hb
    rcases hb with hb | hb
    · exact ih _ b hb
    · subst hb; exact Nat.mod_lt _ (by norm_num)

/-- Bytewise XOR of two byte strings, truncated to the shorter one, as
Python's `bytes(a ^ b for a, b in zip(xs, ys))` and as the CTR-mode
combination step inside GCM. -/
def xorBytes (xs ys : List Nat) : List Nat :=
  List.zipWith (· ^^^ ·) xs ys

theorem xorBytes_length (xs ys : List Nat) :
    (xorBytes xs ys).length = min xs.length ys.length := by
  simp [xorBytes]

theorem xorBytes_xorBytes_cancel (xs ys : List Nat)
    (h : ys.length = xs.length) : xorBytes (xorBytes xs ys) ys = xs := by
  induction xs generalizing ys with
  | nil => simp [xorBytes]
  | cons a as ih =>
    cases ys with
    | nil => simp at h
    | cons b bs =>
      simp only [xorBytes, List.zipWith_cons_cons]
      rw [show (a ^^^ b) ^^^ b = a from Nat.xor_cancel_right b a]
      have := ih bs (by simpa using h)
      simpa [xorBytes] using this

theorem xorBytes_lt : ∀ xs ys : List Nat, (∀ b ∈ xs, b < 256) →
    (∀ b ∈ ys, b < 256) → ∀ b ∈ xorBytes xs ys, b < 256 := by
  intro xs
  induction xs with
  | nil => intro ys hx hy b hb; simp [xorBytes] at hb
  | cons a as ih =>
    intro ys hx hy b hb
    cases ys with
    | nil => simp [xorBytes] at hb
    | cons c cs =>
      simp only [xorBytes, List.zipWith_cons_cons, List.mem_cons] at hb
      rcases hb with hb | hb
      · subst hb
        have ha : a < 2 ^ 8 := by simpa using hx a (by simp)
        have hc : c < 2 ^ 8 := by simpa using hy c (by simp)
        simpa using Nat.xor_lt_two_pow ha hc
      · exact ih cs (fun x hx2 => hx x (List.mem_cons_of_mem _ hx2))
          (fun x hy2 => hy x (List.mem_cons_of_mem _ hy2)) b hb

/-! ## Base64 (`base64.b64encode` / `base64.b64decode`)

`crypto_utils.py` stores every envelope as the standard base64 text of
its bytes.  We embed the codec over ASCII codes: `b64encode` maps a byte
list to the list of ASCII codes of its base64 text (including `=`
padding, code 61), and `b64decode` parses well-formed base64 text back
to bytes, returning `none` on text it cannot split into padded
four-character groups (Python raises `binascii.Error` there). -/

/-- ASCII code of the base64 alphabet character for a sextet. -/
def b64char (n : Nat) : Nat :=
  if n < 26 then 65 + n
  else if n < 52 then 71 + n
  else if n < 62 then n - 4
  else if n = 62 then 43
  else 47

/-- Sextet value of a base64 alphabet ASCII code. -/
def b64val (c : Nat) : Nat :=
  if 65 ≤ c ∧ c ≤ 90 then c - 65
  else if 97 ≤ c ∧ c ≤ 122 then c - 71
  else if 48 ≤ c ∧ c ≤ 57 then c + 4
  else if c = 43 then 62
  else 63

theorem b64val_b64char : ∀ n < 64, b64val (b64char n) = n := by decide

theorem b64char_ne_pad : ∀ n < 64, b64char n ≠ 61 := by decide

theorem b64char_lt : ∀ n < 64, b64char n < 256 := by decide

/-- Base64-encode a byte list, three bytes to four characters, padding
the final group with `=` (ASCII 61). -/
def b64encode : List Nat → List Nat
  | [] => []
  | [a] => [b64char (a / 4), b64char (a % 4 * 16), 61, 61]
  | [a, b] => [b64char (a / 4), b64char (a % 4 * 16 + b / 16),
               b64char (b % 16 * 4), 61]
  | a :: b :: c :: rest =>
      b64char (a / 4) :: b64char (a % 4 * 16 + b / 16) ::
      b64char (b % 16 * 4 + c / 64) :: b64char (c % 64) :: b64encode rest

/-- Base64-decode well-formed base64 text (ASCII codes); `none` when the
text is not a sequence of four-character groups with trailing padding. -/
def b64decode : List Nat → Option (List Nat)
  | [] => some []
  | c1 :: c2 :: c3 :: c4 :: rest =>
      if rest = [] ∧ c4 = 61 then
        if c3 = 61 then
          some [b64val c1 * 4 + b64val c2 / 16]
        else
          some [b64val c1 * 4 + b64val c2 / 16,
                b64val c2 % 16 * 16 + b64val c3 / 4]
      else
        match b64decode rest with
        | none => none
        | some tail =>
            some ((b64val c1 * 4 + b64val c2 / 16) ::
                  (b64val c2 % 16 * 16 + b64val c3 / 4) ::
                  (b64val c3 % 4 * 64 + b64val c4) :: tail)
  | _ => none

theorem b64char_lt_all (n : Nat) : b64char n < 256 := by
  unfold b64char
  split
  · omega
  · split
    · omega
    · split
      · omega
      · split <;> omega

theorem b64encode_length (bs : List Nat) :
    (b64encode bs).length = 4 * ((bs.length + 2) / 3) := by
  induction bs using b64encode.induct with
  | case1 => rfl
  | case2 a => simp [b64encode]
  | case3 a b => simp [b64encode]
  | case4 a b c rest ih =>
    simp only [b64encode, List.length_cons, ih]
    omega

theorem b64decode_b64encode (bs : List Nat) (h : ∀ b ∈ bs, b < 256) :
    b64decode (b64encode bs) = some bs := by
  induction bs using b64encode.induct with
  | case1 => rfl
  | case2 a =>
    have ha : a < 256 := h a (by simp)
    have h1 : a / 4 < 64 := by omega
    have h2 : a % 4 * 16 < 64 := by omega
    simp only [b64encode, b64decode]
    rw [if_pos (⟨trivial, trivial⟩ : True ∧ True)]
    rw [if_pos (trivial : True)]
    rw [b64val_b64char _ h1, b64val_b64char _ h2]
    simp only [Option.some.injEq, List.cons.injEq, and_true]
    omega
  | case3 a b =>
    have ha : a < 256 := h a (by simp)
    have hb : b < 256 := h b (by simp)
    have h1 : a / 4 < 64 := by omega
    have h2 : a % 4 * 16 + b / 16 < 64 := by omega
    have h3 : b % 16 * 4 < 64 := by omega
    simp only [b64encode, b64decode]
    rw [if_pos (⟨trivial, trivial⟩ : True ∧ True)]
    rw [if_neg (b64char_ne_pad _ h3)]
    rw [b64val_b64char _ h1, b64val_b64char _ h2, b64val_b64char _ h3]
    simp only [Option.some.injEq, List.cons.injEq, and_true]
    constructor <;> omega
  | case4 a b c rest ih =>
    have ha : a < 256 := h a (by simp)
    have hb : b < 256 := h b (by simp)
    have hc : c < 256 := h c (by simp)
    have h1 : a / 4 < 64 := by omega
    have h2 : a % 4 * 16 + b / 16 < 64 := by omega
    have h3 : b % 16 * 4 + c / 64 < 64 := by omega
    have h4 : c % 64 < 64 := by omega
    have hrest : ∀ x ∈ rest, x < 256 := fun x hx =>
      h x (by simp [hx])
    simp only [b64encode, b64decode]
    rw [if_neg (by rintro ⟨-, h61⟩; exact b64char_ne_pad _ h4 h61)]
    rw [ih hrest]
    dsimp only
    rw [b64val_b64char _ h1, b64val_b64char _ h2,
      b64val_b64char _ h3, b64val_b64char _ h4]
    simp only [Option.some.injEq, List.cons.injEq, and_true]
    refine ⟨by omega, by omega, by omega⟩

theorem b64encode_lt (bs : List Nat) : ∀ x ∈ b64encode bs, x < 256 := by
  induction bs using b64encode.induct with
  | case1 => intro x hx; simp [b64encode] at hx
  | case2 a =>
    intro x hx
    simp only [b64encode, List.mem_cons, List.not_mem_nil, or_false] at hx
    rcases hx with h | h | h | h <;> subst h <;>
      first | exact b64char_lt_all _ | omega
  | case3 a b =>
    intro x hx
    simp only [b64encode, List.mem_cons, List.not_mem_nil, or_false] at hx
    rcases hx with h | h | h | h <;> subst h <;>
      first | exact b64char_lt_all _ | omega
  | case4 a b c rest ih =>
    intro x hx
    simp only [b64encode, List.mem_cons] at hx
    rcases hx with h | h | h | h | h
    · subst h; exact b64char_lt_all _
    · subst h; exact b64char_lt_all _
    · subst h; exact b64char_lt_all _
    · subst h; exact b64char_lt_all _
    · exact ih x h

/-! ## AES-256 (FIPS-197)

`crypto_utils.py` delegates the cipher to pycryptodome's
`AES.new(key, AES.MODE_GCM, nonce=iv)`; we embed the algorithm that
library implements.  A 16-byte block is carried as a single natural
number below `2^128` in big-endian byte order; byte `i` of the block is
`(x >>> (8 * (15 - i))) % 256`. -/

/-- The AES S-box packed into one integer: entry `n` occupies bits
`8 * n .. 8 * n + 7`.  The 256 entries are the standard FIPS-197 table
(multiplicative inverse in GF(2^8) followed by the affine map). -/
def sboxPacked : Nat :=
  2869618975290639062594974519597816386035077209210385677284518162336985023502962151465775969507961862820568736543004676439868535775640188584098917533413284844376797297285941524888791401501466624530423689326528054213168201056672989590893583853414110162539122864583953358348775951166211353578440977400428507475679327181038682772945817200201960445064847785221508011893952350688324234443749897213621340677040612747745615276448919507935121141307752692835344166708617454322778699219895865633266409040561742768581056182730443599545881830075941537620590442514083341749674612746994879540562701631131184186066652929592955206755

/-- S-box lookup. -/
def sbox (n : Nat) : Nat := sboxPacked >>> (8 * n) % 256

/-- Byte `i` (big-endian, `0 ≤ i < 16`) of a 128-bit block. -/
def blockByte (x i : Nat) : Nat := x >>> (8 * (15 - i)) % 256

/-- Rebuild a 128-bit block from a byte-valued function on `0 .. 15`. -/
def assemble16 (f : Nat → Nat) : Nat :=
  (List.range 16).foldl (fun acc i => acc * 256 + f i) 0

/-- Multiplication by 2 in GF(2^8) modulo the AES polynomial. -/
def xtime (b : Nat) : Nat :=
  if b < 128 then 2 * b else (2 * b) ^^^ 283

/-- SubBytes on a block. -/
def subBytes (x : Nat) : Nat := assemble16 (fun i => sbox (blockByte x i))

/-- ShiftRows on a block.  Input byte `4 * c + r` is state entry
`s[r][c]`; row `r` rotates left by `r`. -/
def shiftRows (x : Nat) : Nat :=
  assemble16 (fun i => blockByte x (4 * ((i / 4 + i % 4) % 4) + i % 4))

/-- MixColumns on a block. -/
def mixColumns (x : Nat) : Nat :=
  assemble16 (fun i =>
    let c := i / 4
    let a0 := blockByte x (4 * c)
    let a1 := blockByte x (4 * c + 1)
    let a2 := blockByte x (4 * c + 2)
    let a3 := blockByte x (4 * c + 3)
    match i % 4 with
    | 0 => xtime a0 ^^^ (xtime a1 ^^^ a1) ^^^ a2 ^^^ a3
    | 1 => a0 ^^^ xtime a1 ^^^ (xtime a2 ^^^ a2) ^^^ a3
    | 2 => a0 ^^^ a1 ^^^ xtime a2 ^^^ (xtime a3 ^^^ a3)
    | _ => (xtime a0 ^^^ a0) ^^^ a1 ^^^ a2 ^^^ xtime a3)

/-- SubWord of the key schedule: S-box each byte of a 32-bit word. -/
def subWord (w : Nat) : Nat :=
  sbox (w >>> 24) * 16777216 + sbox (w >>> 16 % 256) * 65536 +
    sbox (w >>> 8 % 256) * 256 + sbox (w % 256)

/-- RotWord of the key schedule: rotate a 32-bit word left by one byte. -/
def rotWord (w : Nat) : Nat := w % 16777216 * 256 + w >>> 24

/-- Round constants for AES-256 (indices 1 .. 7). -/
def rcon (j : Nat) : Nat := [0, 1, 2, 4, 8, 16, 32, 64].getD j 0

/-- One key-expansion step: word `i` from the words so far. -/
def nextWord (ws : List Nat) (i : Nat) : Nat :=
  let t := ws.getD (i - 1) 0
  let t :=
    if i % 8 = 0 then subWord (rotWord t) ^^^ (rcon (i / 8) * 16777216)
    else if i % 8 = 4 then subWord t
    else t
  ws.getD (i - 8) 0 ^^^ t

/-- AES-256 key expansion: the 60 32-bit words of the key schedule, from
the eight words of the 256-bit key. -/
def expandKey (key : List Nat) : List Nat :=
  let kw := (List.range 8).map (fun i =>
    bytesToNat [key.getD (4 * i) 0, key.getD (4 * i + 1) 0,
                key.getD (4 * i + 2) 0, key.getD (4 * i + 3) 0])
  (List.range 52).foldl (fun ws j => ws ++ [nextWord ws (8 + j)]) kw

/-- The 128-bit round key for round `r` (words `4r .. 4r + 3`). -/
def roundKey (ws : List Nat) (r : Nat) : Nat :=
  ((ws.getD (4 * r) 0 * 4294967296 + ws.getD (4 * r + 1) 0) * 4294967296 +
      ws.getD (4 * r + 2) 0) * 4294967296 + ws.getD (4 * r + 3) 0

/-- The 13 middle AES rounds, by structural recursion on the count. -/
def aesRounds (ws : List Nat) : Nat → Nat → Nat
  | 0, s => s
  | n + 1, s =>
      aesRounds ws n (mixColumns (shiftRows (subBytes s)) ^^^
        roundKey ws (13 - n))

/-- The AES-256 block cipher on a 128-bit block. -/
def aesBlock (key : List Nat) (x : Nat) : Nat :=
  let ws := expandKey key
  let s := aesRounds ws 13 (x ^^^ roundKey ws 0)
  shiftRows (subBytes s) ^^^ roundKey ws 14

/-! ## GCM (NIST SP 800-38D)

pycryptodome's `MODE_GCM` with the default 16-byte tag and no
associated data. -/

/-- Multiplication in GF(2^128) with the GCM reduction polynomial, on
128-bit blocks in the bit order of SP 800-38D. -/
def gfMul (x y : Nat) : Nat :=
  ((List.range 128).foldl
    (fun zv i =>
      let z := if x.testBit (127 - i) then zv.1 ^^^ zv.2 else zv.1
      let v := if zv.2 % 2 = 1 then
          zv.2 / 2 ^^^ 299076299051606071403356588563077529600
        else zv.2 / 2
      (z, v))
    (0, y)).1

/-- GHASH over a sequence of 128-bit blocks. -/
def ghashBlocks (h : Nat) (blocks : List Nat) : Nat :=
  blocks.foldl (fun y blk => gfMul (y ^^^ blk) h) 0

/-- Split a byte string into 128-bit blocks, zero-padding the last;
structural recursion on a fuel bound of one step per byte. -/
def toBlocksFuel : Nat → List Nat → List Nat
  | 0, _ => []
  | fuel + 1, bs =>
      if bs = [] then []
      else bytesToNat (bs.take 16 ++ List.replicate (16 - bs.length) 0) ::
        toBlocksFuel fuel (bs.drop 16)

/-- Split a byte string into 128-bit blocks, zero-padding the last. -/
def toBlocks (bs : List Nat) : List Nat := toBlocksFuel bs.length bs

/-- GHASH of a byte string: pad to a whole number of blocks. -/
def ghashBytes (h : Nat) (bs : List Nat) : Nat :=
  ghashBlocks h (toBlocks bs)

/-- The pre-counter block `J0` from the nonce: append `0^31 1` to a
96-bit nonce, otherwise GHASH the padded nonce and its bit length. -/
def gcmJ0 (key : List Nat) (iv : List Nat) : Nat :=
  if iv.length = 12 then bytesToNat iv * 4294967296 + 1
  else
    let h := aesBlock key 0
    ghashBlocks h (toBlocks iv ++ [8 * iv.length])

/-- Increment the low 32 bits of a counter block. -/
def inc32 (x : Nat) : Nat :=
  x / 4294967296 * 4294967296 + (x + 1) % 4294967296

/-- Concatenated CTR keystream blocks starting from counter `cb`. -/
def ctrBlocks (key : List Nat) (cb : Nat) : Nat → List Nat
  | 0 => []
  | n + 1 => natToBytes 16 (aesBlock key cb) ++ ctrBlocks key (inc32 cb) n

/-- The first `n` keystream bytes GCM derives from `key` and `iv`. -/
def keystream (key iv : List Nat) (n : Nat) : List Nat :=
  (ctrBlocks key (inc32 (gcmJ0 key iv)) ((n + 15) / 16)).take n

/-- The GCM ciphertext of `data`: XOR with the keystream. -/
def gcmCiphertext (key iv data : List Nat) : List Nat :=
  xorBytes data (keystream key iv data.length)

/-- The 16-byte GCM authentication tag over ciphertext `ct` with no
associated data. -/
def gcmTag (key iv ct : List Nat) : List Nat :=
  let h := aesBlock key 0
  let j0 := gcmJ0 key iv
  let s := ghashBlocks h (toBlocks ct ++ [8 * ct.length])
  natToBytes 16 (aesBlock key j0 ^^^ s)

theorem ctrBlocks_length (key : List Nat) (cb n : Nat) :
    (ctrBlocks key cb n).length = 16 * n := by
  induction n generalizing cb with
  | zero => rfl
  | succ n ih =>
    simp only [ctrBlocks, List.length_append, natToBytes_length, ih]
    omega

theorem ctrBlocks_lt (key : List Nat) (cb n : Nat) :
    ∀ b ∈ ctrBlocks key cb n, b < 256 := by
  induction n generalizing cb with
  | zero => intro b hb; simp [ctrBlocks] at hb
  | succ n ih =>
    intro b hb
    simp only [ctrBlocks, List.mem_append] at hb
    rcases hb with hb | hb
    · exact natToBytes_lt _ _ b hb
    · exact ih _ b hb

theorem keystream_length (key iv : List Nat) (n : Nat) :
    (keystream key iv n).length = n := by
  simp only [keystream, List.length_take, ctrBlocks_length]
  omega

theorem keystream_lt (key iv : List Nat) (n : Nat) :
    ∀ b ∈ keystream key iv n, b < 256 := fun b hb =>
  ctrBlocks_lt _ _ _ b (List.mem_of_mem_take hb)

theorem gcmCiphertext_length (key iv data : List Nat) :
    (gcmCiphertext key iv data).length = data.length := by
  simp [gcmCiphertext, xorBytes_length, keystream_length]

theorem gcmCiphertext_lt (key iv data : List Nat)
    (h : ∀ b ∈ data, b < 256) : ∀ b ∈ gcmCiphertext key iv data, b < 256 :=
  xorBytes_lt _ _ h (keystream_lt key iv data.length)

theorem gcmTag_length (key iv ct : List Nat) :
    (gcmTag key iv ct).length = 16 := natToBytes_length _ _

theorem gcmTag_lt (key iv ct : List Nat) :
    ∀ b ∈ gcmTag key iv ct, b < 256 := natToBytes_lt _ _

/-! ## `crypto_utils.py` -/

/-- The failure a caller of `decrypt_value` observes.  pycryptodome
raises `ValueError("Nonce cannot be empty")` from `AES.new` when the
sliced nonce is empty, `ValueError("MAC check failed")` from
`decrypt_and_verify` on any tag mismatch, and `binascii.Error` from
`b64decode` on text that is not well-formed base64. -/
inductive DecryptError where
  | badBase64
  | nonceEmpty
  | macCheckFailed
  deriving DecidableEq, Repr

/-- Modelled from the spec: `config.get_aes_key` (the `config` module is
not part of the sources) resolves the single process-wide 256-bit AES
key from the environment at startup.  The claims hold for every 32-byte
key; a fixed representative stands in for the deployment's secret. -/
def get_aes_key : List Nat := List.range 32

/-- Body of `encrypt_value` for an explicit key and drawn nonce: AES-GCM
`encrypt_and_digest`, then base64 of `iv + tag + ciphertext`. -/
def encryptCore (key iv p : List Nat) : List Nat :=
  b64encode (iv ++ gcmTag key iv (gcmCiphertext key iv p) ++
    gcmCiphertext key iv p)

/-- Body of `decrypt_value` for an explicit key: base64-decode, slice
`raw[:12]`, `raw[12:28]`, `raw[28:]`, build the cipher (which rejects an
empty nonce), decrypt, and verify the tag. -/
def decryptCore (key enc : List Nat) : Except DecryptError (List Nat) :=
  match b64decode enc with
  | none => .error .badBase64
  | some raw =>
      if raw.take 12 = [] then .error .nonceEmpty
      else if gcmTag key (raw.take 12) (raw.drop 28) =
          (raw.drop 12).take 16 then
        .ok (xorBytes (raw.drop 28)
          (keystream key (raw.take 12) (raw.drop 28).length))
      else .error .macCheckFailed

/-- `encrypt_value(plaintext)` from `crypto_utils.py`.  The plaintext is
carried as its UTF-8 byte sequence and the 12 random bytes the source
draws with `get_random_bytes(12)` are the explicit `iv` argument; the
result is the ASCII code sequence of the returned base64 string. -/
def encrypt_value (iv p : List Nat) : List Nat := encryptCore get_aes_key iv p

/-- `decrypt_value(enc)` from `crypto_utils.py` on the ASCII codes of
`enc`, returning the decrypted UTF-8 bytes or the error the source
raises. -/
def decrypt_value (enc : List Nat) : Except DecryptError (List Nat) :=
  decryptCore get_aes_key enc

/-- Round trip at the core level: decrypting an envelope produced with
the same key recovers the plaintext bytes exactly. -/
theorem decryptCore_encryptCore (key iv p : List Nat)
    (hlen : iv.length = 12) (hiv : ∀ b ∈ iv, b < 256)
    (hp : ∀ b ∈ p, b < 256) :
    decryptCore key (encryptCore key iv p) = .ok p := by
  have hct : ∀ b ∈ gcmCiphertext key iv p, b < 256 := gcmCiphertext_lt _ _ _ hp
  have htag : ∀ b ∈ gcmTag key iv (gcmCiphertext key iv p), b < 256 :=
    gcmTag_lt _ _ _
  have henv : ∀ b ∈ iv ++ gcmTag key iv (gcmCiphertext key iv p) ++
      gcmCiphertext key iv p, b < 256 := by
    intro b hb
    simp only [List.mem_append] at hb
    rcases hb with (hb | hb) | hb
    · exact hiv b hb
    · exact htag b hb
    · exact hct b hb
  have htake12 : (iv ++ gcmTag key iv (gcmCiphertext key iv p) ++
      gcmCiphertext key iv p).take 12 = iv := by
    rw [List.append_assoc, ← hlen, List.take_left]
  have hdrop12 : (iv ++ gcmTag key iv (gcmCiphertext key iv p) ++
      gcmCiphertext key iv p).drop 12 =
      gcmTag key iv (gcmCiphertext key iv p) ++ gcmCiphertext key iv p := by
    rw [List.append_assoc, ← hlen, List.drop_left]
  have htag16 : (gcmTag key iv (gcmCiphertext key iv p) ++
      gcmCiphertext key iv p).take 16 =
      gcmTag key iv (gcmCiphertext key iv p) := by
    rw [← gcmTag_length key iv (gcmCiphertext key iv p), List.take_left]
  have hdrop28 : (iv ++ gcmTag key iv (gcmCiphertext key iv p) ++
      gcmCiphertext key iv p).drop 28 = gcmCiphertext key iv p := by
    rw [show (28 : Nat) = (iv ++ gcmTag key iv (gcmCiphertext key iv p)).length
        by simp [hlen, gcmTag_length], List.drop_left]
  unfold decryptCore encryptCore
  rw [b64decode_b64encode _ henv]
  simp only [htake12, hdrop12, htag16, hdrop28]
  rw [if_neg (by simp [← List.length_eq_zero, hlen])]
  rw [if_pos (trivial : True)]
  have hlist : (gcmCiphertext key iv p).length = p.length :=
    gcmCiphertext_length key iv p
  rw [hlist]
  unfold gcmCiphertext
  exact congrArg Except.ok (xorBytes_xorBytes_cancel p _ (keystream_length _ _ _))

/-! ## Schema model for `hospital_db_setup.py`

Rows of the tables the claims touch, with the columns the source reads
or writes.  `BLOB` columns that hold envelopes are byte lists (the
source stores the base64 text produced by `encrypt_value`); `DECIMAL`
amounts are carried in cents; `TIMESTAMP` bookkeeping columns are not
modelled.  `AUTO_INCREMENT` assigns one more than the largest existing
primary key. -/

structure PatientRow where
  patient_id : Nat
  first_name : String
  last_name : String
  dob : String
  gender : String
  phone_number : List Nat
  email : List Nat
  ssn : List Nat
  state_id : List Nat
  primary_doctor_id : Option Nat
  deriving DecidableEq, Repr

structure SensitiveRow where
  sensitive_id : Nat
  patient_id : Nat
  mrn : List Nat
  home_address : List Nat
  insurance_policy : List Nat
  card_last4 : String
  deriving DecidableEq, Repr

structure BillingRow where
  billing_id : Nat
  patient_id : Nat
  total_amount : Nat
  paid_amount : Nat
  status : String
  deriving DecidableEq, Repr

structure PayMethodRow where
  payment_method_id : Nat
  patient_id : Nat
  ptype : String
  last4 : String
  data_enc : List Nat
  is_default : Bool
  deriving DecidableEq, Repr

structure PayTxRow where
  payment_id : Nat
  billing_id : Nat
  patient_id : Nat
  payment_method_id : Option Nat
  amount : Nat
  status : String
  note : String
  deriving DecidableEq, Repr

/-- The tracked field subset each audit trigger snapshots into
`old_data` / `new_data` (the triggers CONCAT exactly these fields into a
JSON-shaped string; the snapshot carries the same information). -/
inductive AuditData where
  | patientData (first_name last_name dob gender : String)
  | sensitiveData (card_last4 : String)
  | billingData (total_amount paid_amount : Nat) (status : String)
  | payMethodData (ptype last4 : String) (is_default : Bool)
  | payTxData (billing_id patient_id amount : Nat) (status : String)
  deriving DecidableEq, Repr

structure AuditRow where
  table_name : String
  record_id : Nat
  action : String
  changed_by : String
  old_data : Option AuditData
  new_data : Option AuditData
  deriving DecidableEq, Repr

structure HospitalDB where
  patients : List PatientRow
  sensitive : List SensitiveRow
  billing : List BillingRow
  paymethods : List PayMethodRow
  paytx : List PayTxRow
  audit : List AuditRow
  deriving DecidableEq, Repr

/-- MySQL `AUTO_INCREMENT`: one more than the largest assigned id. -/
def nextId (ids : List Nat) : Nat := ids.foldr max 0 + 1

theorem le_foldr_max (ids : List Nat) : ∀ x ∈ ids, x ≤ ids.foldr max 0 := by
  induction ids with
  | nil => intro x hx; simp at hx
  | cons a l ih =>
    intro x hx
    rcases List.mem_cons.mp hx with h | h
    · subst h; exact le_max_left _ _
    · exact le_trans (ih x h) (le_max_right _ _)

theorem lt_nextId (ids : List Nat) : ∀ x ∈ ids, x < nextId ids := fun x hx =>
  Nat.lt_succ_of_le (le_foldr_max ids x hx)

/-! ## Repository operations (`insert_patient_data` / `get_patient_data`) -/

/-- The plaintext record `insert_patient_data` receives; sensitive
values are UTF-8 byte sequences. -/
structure PatientData where
  first_name : String
  last_name : String
  dob : String
  gender : String
  phone_number : List Nat
  email : List Nat
  ssn : List Nat
  state_id : List Nat
  primary_doctor_id : Option Nat
  deriving DecidableEq, Repr

/-- `encrypt_data` from `hospital_db_setup.py`: `encrypt_value(p or "")`
(on byte sequences an empty value stays empty, so the `or` guard is the
identity). -/
def encrypt_data (iv p : List Nat) : List Nat := encrypt_value iv p

/-- `decrypt_data` from `hospital_db_setup.py`: an absent or empty
column decodes to the empty value, anything else goes through
`decrypt_value`. -/
def decrypt_data (stored : List Nat) : Except DecryptError (List Nat) :=
  if stored = [] then .ok [] else decrypt_value stored

/-- The `Patient` row `insert_patient_data` builds: the four sensitive
fields encrypted with `encrypt_data`, the id freshly assigned. -/
def insertedRow (db : HospitalDB) (ivs : List (List Nat))
    (pd : PatientData) : PatientRow :=
  { patient_id := nextId (db.patients.map (·.patient_id))
    first_name := pd.first_name
    last_name := pd.last_name
    dob := pd.dob
    gender := pd.gender
    phone_number := encrypt_data (ivs.getD 0 []) pd.phone_number
    email := encrypt_data (ivs.getD 1 []) pd.email
    ssn := encrypt_data (ivs.getD 2 []) pd.ssn
    state_id := encrypt_data (ivs.getD 3 []) pd.state_id
    primary_doctor_id := pd.primary_doctor_id }

/-- `insert_patient_data`: encrypt the four sensitive fields, INSERT
the row, commit, return `lastrowid`.  The four nonces the source draws
inside `encrypt_value` are the entries of `ivs`. -/
def insert_patient_data (db : HospitalDB) (ivs : List (List Nat))
    (pd : PatientData) : HospitalDB × Nat :=
  ({ db with patients := db.patients ++ [insertedRow db ivs pd] },
   nextId (db.patients.map (·.patient_id)))

/-- The plaintext view `get_patient_data` returns. -/
structure PatientView where
  patient_id : Nat
  first_name : String
  last_name : String
  dob : String
  gender : String
  phone_number : List Nat
  email : List Nat
  ssn : List Nat
  state_id : List Nat
  primary_doctor_id : Option Nat
  deriving DecidableEq, Repr

/-- `get_patient_data`: fetch the row by id, decrypt the four sensitive
columns, return the plaintext view; `none` models the explicit
"Patient not found!" outcome, and a raised decryption error is the
`Except.error` branch. -/
def get_patient_data (db : HospitalDB) (pid : Nat) :
    Option (Except DecryptError PatientView) :=
  match db.patients.find? (fun r => r.patient_id == pid) with
  | none => none
  | some r => some (do
      let phone ← decrypt_data r.phone_number
      let email ← decrypt_data r.email
      let ssn ← decrypt_data r.ssn
      let sid ← decrypt_data r.state_id
      pure { patient_id := r.patient_id
             first_name := r.first_name
             last_name := r.last_name
             dob := r.dob
             gender := r.gender
             phone_number := phone
             email := email
             ssn := ssn
             state_id := sid
             primary_doctor_id := r.primary_doctor_id })

/-! ## Audit triggers (`create_database_and_tables`)

Each mutation below performs the row change and, in the same
transaction, the trigger body: one `Audit_Log` INSERT with the tracked
field subset.  Primary keys are unique (every insert assigns a fresh
id), so a keyed UPDATE touches at most one row and fires its row-level
trigger once. -/

/-- UPDATE on `Patient` (demographic columns) with
`trg_patient_before_update`. -/
def update_patient (db : HospitalDB) (pid : Nat)
    (fn ln dob g : String) : HospitalDB :=
  match db.patients.find? (fun r => r.patient_id == pid) with
  | none => db
  | some old =>
      { db with
        patients := db.patients.map (fun r =>
          if r.patient_id == pid then
            { r with first_name := fn, last_name := ln, dob := dob,
                     gender := g }
          else r)
        audit := db.audit ++ [{
          table_name := "Patient"
          record_id := old.patient_id
          action := "UPDATE"
          changed_by := "SYSTEM"
          old_data := some (.patientData old.first_name old.last_name
            old.dob old.gender)
          new_data := some (.patientData fn ln dob g) }] }

/-- UPDATE on `Patient_Sensitive` with
`trg_patient_sensitive_before_update` (tracks only `card_last4`). -/
def update_patient_sensitive (db : HospitalDB) (sid : Nat)
    (last4 : String) : HospitalDB :=
  match db.sensitive.find? (fun r => r.sensitive_id == sid) with
  | none => db
  | some old =>
      { db with
        sensitive := db.sensitive.map (fun r =>
          if r.sensitive_id == sid then { r with card_last4 := last4 }
          else r)
        audit := db.audit ++ [{
          table_name := "Patient_Sensitive"
          record_id := old.sensitive_id
          action := "UPDATE"
          changed_by := "SYSTEM"
          old_data := some (.sensitiveData old.card_last4)
          new_data := some (.sensitiveData last4) }] }

/-- UPDATE on `Billing` with `trg_billing_before_update`. -/
def update_billing (db : HospitalDB) (bid : Nat)
    (total paid : Nat) (status : String) : HospitalDB :=
  match db.billing.find? (fun r => r.billing_id == bid) with
  | none => db
  | some old =>
      { db with
        billing := db.billing.map (fun r =>
          if r.billing_id == bid then
            { r with total_amount := total, paid_amount := paid,
                     status := status }
          else r)
        audit := db.audit ++ [{
          table_name := "Billing"
          record_id := old.billing_id
          action := "UPDATE"
          changed_by := "SYSTEM"
          old_data := some (.billingData old.total_amount old.paid_amount
            old.status)
          new_data := some (.billingData total paid status) }] }

/-- UPDATE on `Payment_Methods` with `trg_paymethod_before_update`. -/
def update_payment_method (db : HospitalDB) (mid : Nat)
    (ptype last4 : String) (isDefault : Bool) : HospitalDB :=
  match db.paymethods.find? (fun r => r.payment_method_id == mid) with
  | none => db
  | some old =>
      { db with
        paymethods := db.paymethods.map (fun r =>
          if r.payment_method_id == mid then
            { r with ptype := ptype, last4 := last4,
                     is_default := isDefault }
          else r)
        audit := db.audit ++ [{
          table_name := "Payment_Methods"
          record_id := old.payment_method_id
          action := "UPDATE"
          changed_by := "SYSTEM"
          old_data := some (.payMethodData old.ptype old.last4
            old.is_default)
          new_data := some (.payMethodData ptype last4 isDefault) }] }

/-- INSERT on `Payment_Transactions` with
`trg_payment_tx_after_insert` (new-data snapshot only). -/
def insert_payment_transaction (db : HospitalDB) (bid pid : Nat)
    (pm : Option Nat) (amount : Nat) (status note : String) :
    HospitalDB :=
  let newId := nextId (db.paytx.map (·.payment_id))
  { db with
    paytx := db.paytx ++ [{
      payment_id := newId
      billing_id := bid
      patient_id := pid
      payment_method_id := pm
      amount := amount
      status := status
      note := note }]
    audit := db.audit ++ [{
      table_name := "Payment_Transactions"
      record_id := newId
      action := "INSERT"
      changed_by := "SYSTEM"
      old_data := none
      new_data := some (.payTxData bid pid amount status) }] }

/-! ## Transaction transcripts

`mysql.connector` runs with autocommit off: `cursor.execute` adds a
pending write, `commit` publishes all pending writes, and an exception
before `commit` leaves them unpublished (rollback / close discards
them).  A flow is a list of operations; failure at step `k` means the
k-th operation raises, so only the operations before it run. -/

inductive DbOp (α : Type) where
  | exec (w : α)
  | commit
  deriving DecidableEq, Repr

/-- One step of a connection: `exec` appends to the pending list,
`commit` publishes the pending list. -/
def stepOp {α : Type} (st : List α × List α) (op : DbOp α) :
    List α × List α :=
  match op with
  | .exec w => (st.1, st.2 ++ [w])
  | .commit => (st.1 ++ st.2, [])

/-- The writes other readers can see after running `ops`, failing at
step `failAt` if given: fold committed/pending state over the executed
prefix and return the committed part. -/
def runOps {α : Type} (ops : List (DbOp α)) (failAt : Option Nat) :
    List α :=
  ((match failAt with
    | some k => ops.take k
    | none => ops).foldl stepOp ([], [])).1

/-! ## `app.py` (`patient_form` POST handler) -/

/-- UTF-8 bytes of a string, as `str.encode("utf-8")`. -/
def strBytes (s : String) : List Nat := s.toUTF8.toList.map (·.toNat)

theorem strBytes_lt (s : String) : ∀ b ∈ strBytes s, b < 256 := by
  intro b hb
  simp only [strBytes, List.mem_map] at hb
  obtain ⟨u, -, rfl⟩ := hb
  exact u.toNat_lt

/-- The ten form fields after the handler's `.strip()` calls. -/
structure IntakeForm where
  full_name : String
  dob : String
  email : String
  phone : String
  address : String
  mrn : String
  diagnosis : String
  insurance : String
  card : String
  amount : String
  deriving DecidableEq, Repr

/-- The validation test on line 25 of `app.py`:
`len(full_name) < 2 or "@" not in email or len(mrn) < 3 or
len(card) < 4`. -/
def intakeInvalid (f : IntakeForm) : Bool :=
  decide (f.full_name.length < 2) || !(f.email.data.contains '@') ||
    decide (f.mrn.length < 3) || decide (f.card.length < 4)

structure AppPatientsRow where
  full_name : String
  dob : String
  email : String
  phone : String
  address : String
  deriving DecidableEq, Repr

structure AppMedicalRow where
  patient_id : Nat
  mrn_enc : List Nat
  diagnosis_enc : List Nat
  deriving DecidableEq, Repr

structure AppInsuranceRow where
  patient_id : Nat
  insurance_policy_enc : List Nat
  provider_name : String
  deriving DecidableEq, Repr

structure AppBillingRow where
  patient_id : Nat
  amount : String
  status : String
  deriving DecidableEq, Repr

structure AppPaymentsRow where
  billing_id : Nat
  card_number_enc : List Nat
  deriving DecidableEq, Repr

/-- One row written by the handler, tagged with its target table. -/
inductive AppWrite where
  | patientsW (r : AppPatientsRow)
  | medicalW (r : AppMedicalRow)
  | insuranceW (r : AppInsuranceRow)
  | billingW (r : AppBillingRow)
  | paymentsW (r : AppPaymentsRow)
  deriving DecidableEq, Repr

/-- What the handler sends back: `("Invalid input", 400)`,
`(f"Error while saving to DB: {e}", 500)`, or the redirect to
`/success`. -/
inductive AppResponse where
  | invalidInput (body : String) (status : Nat)
  | serverError (body : String) (status : Nat)
  | redirectSuccess
  deriving DecidableEq, Repr

/-- The five INSERTs of the handler followed by the single `commit`.
`pid` and `bid` are the `lastrowid` values the driver reports for the
patients and billing inserts; `ivs` are the nonces drawn by the four
`encrypt_value` calls, in source order (mrn, diagnosis, insurance,
card). -/
def app_ops (f : IntakeForm) (ivs : List (List Nat)) (pid bid : Nat) :
    List (DbOp AppWrite) :=
  [.exec (.patientsW
      { full_name := f.full_name, dob := f.dob, email := f.email,
        phone := f.phone, address := f.address }),
   .exec (.medicalW
      { patient_id := pid
        mrn_enc := encrypt_value (ivs.getD 0 []) (strBytes f.mrn)
        diagnosis_enc := encrypt_value (ivs.getD 1 []) (strBytes f.diagnosis) }),
   .exec (.insuranceW
      { patient_id := pid
        insurance_policy_enc :=
          encrypt_value (ivs.getD 2 []) (strBytes f.insurance)
        provider_name := "Unknown" }),
   .exec (.billingW
      { patient_id := pid, amount := f.amount, status := "PENDING" }),
   .exec (.paymentsW
      { billing_id := bid
        card_number_enc := encrypt_value (ivs.getD 3 []) (strBytes f.card) }),
   .commit]

/-- The POST branch of `patient_form`: validate, then run the write
flow.  `failAt` injects an exception at that step of the flow with text
`failMsg` (the `{e}` the handler interpolates into its 500 body);
`none` is the failure-free run ending in the redirect. -/
def patient_form (f : IntakeForm) (ivs : List (List Nat)) (pid bid : Nat)
    (failAt : Option Nat) (failMsg : String) :
    AppResponse × List AppWrite :=
  if intakeInvalid f then (.invalidInput "Invalid input" 400, [])
  else
    match failAt with
    | some _ =>
        (.serverError (String.append "Error while saving to DB: " failMsg) 500,
         runOps (app_ops f ivs pid bid) failAt)
    | none => (.redirectSuccess, runOps (app_ops f ivs pid bid) none)

/-! ## `insert_comprehensive_dummy_data` write flow

Table names of the writes in source order.  `insert_staff_data` and
`insert_patient_data` each `commit` inside themselves, so every staff
and patient row is published on its own; the satellite rows
(Patient_Sensitive, Appointment, Medical_Record, Billing,
Payment_Methods, Payment_Transactions, the two Users updates) are only
published by the single `commit` at the end. -/

def staffUnitOps : List (DbOp String) := [.exec "Staff", .commit]

def patientUnitOps : List (DbOp String) := [.exec "Patient", .commit]

def dummy_ops : List (DbOp String) :=
  (List.replicate 5 staffUnitOps).flatten ++
  (List.replicate 4 patientUnitOps).flatten ++
  List.replicate 4 (DbOp.exec "Patient_Sensitive") ++
  List.replicate 4 (DbOp.exec "Appointment") ++
  List.replicate 4 (DbOp.exec "Medical_Record") ++
  List.replicate 4 (DbOp.exec "Billing") ++
  List.replicate 4 (DbOp.exec "Payment_Methods") ++
  List.replicate 3 (DbOp.exec "Payment_Transactions") ++
  List.replicate 2 (DbOp.exec "Users") ++ [DbOp.commit]

/-! ## Envelope structure lemmas -/

theorem envelope_lt (key iv p : List Nat) (hiv : ∀ b ∈ iv, b < 256)
    (hp : ∀ b ∈ p, b < 256) :
    ∀ b ∈ iv ++ gcmTag key iv (gcmCiphertext key iv p) ++
      gcmCiphertext key iv p, b < 256 := by
  intro b hb
  simp only [List.mem_append] at hb
  rcases hb with (hb | hb) | hb
  · exact hiv b hb
  · exact gcmTag_lt _ _ _ b hb
  · exact gcmCiphertext_lt _ _ _ hp b hb

/-- Decoding an envelope produced by `encrypt_value` recovers the
`nonce ++ tag ++ ciphertext` concatenation exactly. -/
theorem encryptCore_decode (key iv p : List Nat)
    (hiv : ∀ b ∈ iv, b < 256) (hp : ∀ b ∈ p, b < 256) :
    b64decode (encryptCore key iv p) =
      some (iv ++ gcmTag key iv (gcmCiphertext key iv p) ++
        gcmCiphertext key iv p) :=
  b64decode_b64encode _ (envelope_lt key iv p hiv hp)

theorem envelope_length (key iv p : List Nat) (hlen : iv.length = 12) :
    (iv ++ gcmTag key iv (gcmCiphertext key iv p) ++
      gcmCiphertext key iv p).length = 28 + p.length := by
  simp [hlen, gcmTag_length, gcmCiphertext_length]
  omega

theorem encryptCore_length (key iv p : List Nat) (hlen : iv.length = 12) :
    (encryptCore key iv p).length = 4 * ((p.length + 30) / 3) := by
  unfold encryptCore
  rw [b64encode_length]
  rw [show (iv ++ gcmTag key iv (gcmCiphertext key iv p) ++
      gcmCiphertext key iv p).length = 28 + p.length
    from envelope_length key iv p hlen]
  congr 1
  omega

/-- The base64 text of an envelope is never the plaintext it encloses:
the envelope carries 28 bytes of nonce and tag overhead, so the encoded
text is strictly longer than the plaintext. -/
theorem encryptCore_ne_plaintext (key iv p : List Nat)
    (hlen : iv.length = 12) : encryptCore key iv p ≠ p := by
  intro h
  have := congrArg List.length h
  rw [encryptCore_length key iv p hlen] at this
  omega

theorem encryptCore_ne_nil (key iv p : List Nat) (hlen : iv.length = 12) :
    encryptCore key iv p ≠ [] := by
  intro h
  have := congrArg List.length h
  rw [encryptCore_length key iv p hlen] at this
  simp at this
  omega

/-! ## Claim theorems -/

/-- C2.  For every plaintext (as its UTF-8 byte sequence, the empty
string included) and every drawn 12-byte nonce,
`decrypt_value(encrypt_value(p)) == p` under the process key. -/
theorem C2_decrypt_encrypt_roundtrip (iv p : List Nat)
    (hlen : iv.length = 12) (hiv : ∀ b ∈ iv, b < 256)
    (hp : ∀ b ∈ p, b < 256) :
    decrypt_value (encrypt_value iv p) = .ok p :=
  decryptCore_encryptCore get_aes_key iv p hlen hiv hp

/-- C2 witness: the round trip at the empty plaintext and at the two
UTF-8 bytes of "hi". -/
theorem C2_roundtrip_witness :
    decrypt_value (encrypt_value (List.range 12) []) = .ok [] ∧
    decrypt_value (encrypt_value (List.range 12) [104, 105]) =
      .ok [104, 105] :=
  ⟨C2_decrypt_encrypt_roundtrip (List.range 12) [] (by decide) (by decide)
      (by decide),
   C2_decrypt_encrypt_roundtrip (List.range 12) [104, 105] (by decide)
      (by decide) (by decide)⟩

/-- C7.  `encrypt_value` feeds a fresh `get_random_bytes(12)` nonce into
every call (the explicit `iv` argument of the embedding); whenever two
calls draw distinct nonces, the produced envelopes differ, whatever the
two plaintexts are — in particular for the same plaintext. -/
theorem C7_distinct_nonce_distinct_envelope (iv1 iv2 p1 p2 : List Nat)
    (h1 : iv1.length = 12) (h2 : iv2.length = 12)
    (hb1 : ∀ b ∈ iv1, b < 256) (hb2 : ∀ b ∈ iv2, b < 256)
    (hp1 : ∀ b ∈ p1, b < 256) (hp2 : ∀ b ∈ p2, b < 256)
    (hne : iv1 ≠ iv2) :
    encrypt_value iv1 p1 ≠ encrypt_value iv2 p2 := by
  intro h
  apply hne
  have hd := congrArg b64decode h
  unfold encrypt_value at hd
  rw [encryptCore_decode get_aes_key iv1 p1 hb1 hp1,
    encryptCore_decode get_aes_key iv2 p2 hb2 hp2] at hd
  have henv := Option.some.inj hd
  have ht := congrArg (List.take 12) henv
  rwa [List.append_assoc, List.append_assoc, ← h1,
    List.take_left, h1, ← h2, List.take_left] at ht

/-- C7 witness: two concrete distinct nonces on the same plaintext. -/
theorem C7_distinct_nonce_witness :
    encrypt_value (List.range 12) [104, 105] ≠
      encrypt_value (List.replicate 12 7) [104, 105] :=
  C7_distinct_nonce_distinct_envelope _ _ _ _ (by decide) (by decide)
    (by decide) (by decide) (by decide) (by decide) (by decide)

/-- C8.  Every envelope decodes to exactly
`nonce(12) ++ tag(16) ++ ciphertext`, with total decoded length
`28 + |p| ≥ 28`; the empty plaintext is valid and yields a non-empty
28-byte envelope of overhead only. -/
theorem C8_envelope_layout (iv p : List Nat) (hlen : iv.length = 12)
    (hiv : ∀ b ∈ iv, b < 256) (hp : ∀ b ∈ p, b < 256) :
    ∃ tag ct,
      b64decode (encrypt_value iv p) = some (iv ++ tag ++ ct) ∧
      iv.length = 12 ∧ tag.length = 16 ∧ ct.length = p.length ∧
      (iv ++ tag ++ ct).length = 28 + p.length ∧
      28 ≤ (iv ++ tag ++ ct).length ∧
      (p = [] → ct = [] ∧ iv ++ tag ++ ct ≠ []) := by
  refine ⟨gcmTag get_aes_key iv (gcmCiphertext get_aes_key iv p),
    gcmCiphertext get_aes_key iv p,
    encryptCore_decode get_aes_key iv p hiv hp, hlen,
    gcmTag_length _ _ _, gcmCiphertext_length _ _ _,
    envelope_length get_aes_key iv p hlen, ?_, ?_⟩
  · rw [envelope_length get_aes_key iv p hlen]; omega
  · intro hpnil
    constructor
    · rw [← List.length_eq_zero, gcmCiphertext_length, hpnil]
      rfl
    · intro hnil
      have := congrArg List.length hnil
      rw [envelope_length get_aes_key iv p hlen] at this
      simp at this

/-- C8 witness: the empty plaintext under a concrete nonce. -/
theorem C8_envelope_layout_witness :
    ∃ tag ct,
      b64decode (encrypt_value (List.range 12) []) =
        some (List.range 12 ++ tag ++ ct) ∧
      (List.range 12).length = 12 ∧ tag.length = 16 ∧ ct.length = 0 ∧
      (List.range 12 ++ tag ++ ct).length = 28 ∧
      28 ≤ (List.range 12 ++ tag ++ ct).length ∧
      (ct = [] ∧ List.range 12 ++ tag ++ ct ≠ []) := by
  obtain ⟨tag, ct, h1, h2, h3, h4, h5, h6, h7⟩ :=
    C8_envelope_layout (List.range 12) [] (by decide) (by decide)
      (by decide)
  exact ⟨tag, ct, h1, h2, h3, h4, h5, h6, h7 rfl⟩

/-- C10.  GCM produces a ciphertext of the plaintext's exact length, so
the decoded envelope has length `28 + (UTF-8 byte length of p)`: the
stored envelope length reveals the plaintext's byte length. -/
theorem C10_envelope_length_leak (iv p : List Nat)
    (hlen : iv.length = 12) (hiv : ∀ b ∈ iv, b < 256)
    (hp : ∀ b ∈ p, b < 256) :
    ∃ raw, b64decode (encrypt_value iv p) = some raw ∧
      raw.length = 28 + p.length :=
  ⟨iv ++ gcmTag get_aes_key iv (gcmCiphertext get_aes_key iv p) ++
      gcmCiphertext get_aes_key iv p,
   encryptCore_decode get_aes_key iv p hiv hp,
   envelope_length get_aes_key iv p hlen⟩

/-- `decrypt_value` on any decoded envelope shorter than 28 bytes: an
empty envelope fails at cipher construction (empty nonce); any other
short envelope reaches `decrypt_and_verify`, whose recomputed 16-byte
tag can never equal a received tag of fewer than 16 bytes, so it fails
with the same MAC-check error as a corrupted envelope. -/
theorem decryptCore_short (key raw : List Nat) (hb : ∀ b ∈ raw, b < 256)
    (hlt : raw.length < 28) :
    decryptCore key (b64encode raw) =
      .error (if raw = [] then .nonceEmpty else .macCheckFailed) := by
  unfold decryptCore
  rw [b64decode_b64encode raw hb]
  by_cases hnil : raw = []
  · subst hnil
    rfl
  · rw [if_neg hnil]
    have hlen0 : raw.length ≠ 0 := fun h => hnil (List.length_eq_zero.mp h)
    have htake : raw.take 12 ≠ [] := by
      intro h
      have := congrArg List.length h
      simp only [List.length_take, List.length_nil] at this
      omega
    have hne : gcmTag key (raw.take 12) (raw.drop 28) ≠
        (raw.drop 12).take 16 := by
      intro h
      have := congrArg List.length h
      rw [gcmTag_length] at this
      simp only [List.length_take, List.length_drop] at this
      omega
    dsimp only
    rw [if_neg htake, if_neg hne]

/-- C3 counterexample.  The claim says an envelope of fewer than 28
decoded bytes fails with a `MalformedEnvelope` distinct from the
`DecryptionFailure` of a tag mismatch.  In the code both inputs raise
the same `ValueError("MAC check failed")` from `decrypt_and_verify`:
the 20-byte envelope below and the valid 30-byte envelope of "hi" with
one bit of its last ciphertext byte flipped (`107 ^^^ 1 = 106`) produce
the identical failure — `decrypt_value` has no length check and no
separate malformed-envelope error path. -/
theorem C3_no_malformed_class_counterexample :
    b64decode (encrypt_value (List.range 12) [104, 105]) =
      some [0, 1, 2, 3, 4, 5, 6, 7, 8, 9, 10, 11, 254, 70, 82, 171, 57,
        32, 18, 80, 177, 50, 148, 235, 138, 156, 193, 102, 47, 107] ∧
    decrypt_value (b64encode [0, 1, 2, 3, 4, 5, 6, 7, 8, 9, 10, 11, 254,
      70, 82, 171, 57, 32, 18, 80, 177, 50, 148, 235, 138, 156, 193, 102,
      47, 106]) = .error .macCheckFailed ∧
    decrypt_value (b64encode (List.range 20)) = .error .macCheckFailed ∧
    (107 : Nat) ^^^ 1 = 106 ∧ (List.range 20).length < 28 :=
  ⟨by rfl, by rfl, by rfl, by decide, by decide⟩

/-- C3 amended.  `decrypt_value` fails — it never returns plaintext, in
particular never an empty string — whenever the input is not an
authentic envelope, but it does not distinguish a malformed-length
class: every envelope of fewer than 28 decoded bytes fails with the
same `ValueError` tag-verification error (`macCheckFailed`) as a
corrupted envelope, except the empty envelope, which fails at cipher
construction (`nonceEmpty`); and any received tag different from the
authentic one is rejected with `macCheckFailed`. -/
theorem C3_amended_failure_classes :
    (∀ raw : List Nat, (∀ b ∈ raw, b < 256) → raw.length < 28 →
      decrypt_value (b64encode raw) =
        .error (if raw = [] then .nonceEmpty else .macCheckFailed)) ∧
    (∀ iv p tag2 : List Nat, iv.length = 12 → (∀ b ∈ iv, b < 256) →
      (∀ b ∈ p, b < 256) → (∀ b ∈ tag2, b < 256) → tag2.length = 16 →
      tag2 ≠ gcmTag get_aes_key iv (gcmCiphertext get_aes_key iv p) →
      decrypt_value
        (b64encode (iv ++ tag2 ++ gcmCiphertext get_aes_key iv p)) =
        .error .macCheckFailed) := by
  constructor
  · exact fun raw hb hlt => decryptCore_short get_aes_key raw hb hlt
  · intro iv p tag2 hlen hiv hp htag2 hlen2 hne
    have henv : ∀ b ∈ iv ++ tag2 ++ gcmCiphertext get_aes_key iv p,
        b < 256 := by
      intro b hb
      simp only [List.mem_append] at hb
      rcases hb with (hb | hb) | hb
      · exact hiv b hb
      · exact htag2 b hb
      · exact gcmCiphertext_lt _ _ _ hp b hb
    show decryptCore get_aes_key _ = _
    unfold decryptCore
    rw [b64decode_b64encode _ henv]
    have htake12 : (iv ++ tag2 ++ gcmCiphertext get_aes_key iv p).take 12 =
        iv := by
      rw [List.append_assoc, ← hlen, List.take_left]
    have hdrop12 : (iv ++ tag2 ++ gcmCiphertext get_aes_key iv p).drop 12 =
        tag2 ++ gcmCiphertext get_aes_key iv p := by
      rw [List.append_assoc, ← hlen, List.drop_left]
    have htake16 : (tag2 ++ gcmCiphertext get_aes_key iv p).take 16 =
        tag2 := by
      rw [← hlen2, List.take_left]
    have hdrop28 : (iv ++ tag2 ++ gcmCiphertext get_aes_key iv p).drop 28 =
        gcmCiphertext get_aes_key iv p := by
      rw [show (28 : Nat) = (iv ++ tag2).length by simp [hlen, hlen2],
        List.drop_left]
    dsimp only
    rw [htake12, hdrop12, htake16, hdrop28]
    rw [if_neg (by simp [← List.length_eq_zero, hlen])]
    rw [if_neg (fun h => hne h.symm)]

/-- C3 amended witness: the short-envelope conjunct at a concrete
20-byte envelope and the corrupted-tag conjunct at an all-zero tag. -/
theorem C3_amended_failure_witness :
    decrypt_value (b64encode (List.range 20)) = .error .macCheckFailed ∧
    decrypt_value (b64encode (List.range 12 ++ List.replicate 16 0 ++
      gcmCiphertext get_aes_key (List.range 12) [104])) =
      .error .macCheckFailed := by
  constructor
  · have h := C3_amended_failure_classes.1 (List.range 20) (by decide)
      (by decide)
    rwa [if_neg (by decide)] at h
  · exact C3_amended_failure_classes.2 (List.range 12) [104]
      (List.replicate 16 0) (by decide) (by decide) (by decide)
      (by decide) (by decide) (by decide)

/-- C10 witness: a 5-byte plaintext yields a 33-byte decoded
envelope. -/
theorem C10_envelope_length_leak_witness :
    ∃ raw, b64decode (encrypt_value (List.range 12) [1, 2, 3, 4, 5]) =
      some raw ∧ raw.length = 33 :=
  C10_envelope_length_leak (List.range 12) [1, 2, 3, 4, 5] (by decide)
    (by decide) (by decide)

/-- C4.  The handler rejects with the invalid-input signal exactly when
the name is shorter than 2, the email has no `@`, the
medical-record-number is shorter than 3, or the card number is shorter
than 4 — each rule alone suffices, whatever the other fields — and a
submission passing all four rules with a failure-free store is accepted
and processed to the success redirect. -/
theorem C4_validation_rules (f : IntakeForm) (ivs : List (List Nat))
    (pid bid : Nat) (failAt : Option Nat) (failMsg : String) :
    ((patient_form f ivs pid bid failAt failMsg).1 =
        .invalidInput "Invalid input" 400 ↔
      (f.full_name.length < 2 ∨ '@' ∉ f.email.data ∨ f.mrn.length < 3 ∨
        f.card.length < 4)) ∧
    (¬ (f.full_name.length < 2 ∨ '@' ∉ f.email.data ∨ f.mrn.length < 3 ∨
        f.card.length < 4) →
      (patient_form f ivs pid bid none failMsg).1 = .redirectSuccess) := by
  have hiff : intakeInvalid f = true ↔
      (f.full_name.length < 2 ∨ '@' ∉ f.email.data ∨ f.mrn.length < 3 ∨
        f.card.length < 4) := by
    simp [intakeInvalid, List.contains, or_assoc]
  cases hb : intakeInvalid f with
  | true =>
    refine ⟨⟨fun _ => hiff.mp hb, fun _ => by simp [patient_form, hb]⟩,
      fun hnot => absurd (hiff.mp hb) hnot⟩
  | false =>
    have hnd : ¬ (f.full_name.length < 2 ∨ '@' ∉ f.email.data ∨
        f.mrn.length < 3 ∨ f.card.length < 4) := fun h => by
      rw [hiff.mpr h] at hb
      exact Bool.noConfusion hb
    refine ⟨⟨fun h => ?_, fun h => absurd h hnd⟩,
      fun _ => by simp [patient_form, hb]⟩
    exfalso
    simp only [patient_form, hb, Bool.false_eq_true, if_false] at h
    cases failAt <;> simp at h

/-- C4 witness: a one-letter name alone is rejected; a submission
passing all four rules is processed to the redirect. -/
theorem C4_validation_rules_witness :
    (patient_form
      { full_name := "A", dob := "1990-01-01", email := "a@b.com",
        phone := "555-0101", address := "1 Main St", mrn := "MRN001",
        diagnosis := "Cold", insurance := "INS-1",
        card := "4111111111111111", amount := "100" }
      [] 1 1 none "").1 = .invalidInput "Invalid input" 400 ∧
    (patient_form
      { full_name := "Ann Lee", dob := "1990-01-01", email := "a@b.com",
        phone := "555-0101", address := "1 Main St", mrn := "MRN001",
        diagnosis := "Cold", insurance := "INS-1",
        card := "4111111111111111", amount := "100" }
      [] 1 1 none "").1 = .redirectSuccess :=
  ⟨(C4_validation_rules _ [] 1 1 none "").1.mpr (Or.inl (by decide)),
   (C4_validation_rules _ [] 1 1 none "").2 (by decide)⟩

/-- C9 counterexample.  The claim says invalid input is rejected with a
message naming the specific violated rule, and that a storage failure
yields a generic message with no internal exception detail.  The code
does the opposite: a too-short name and a missing `@` produce the
identical fixed body `"Invalid input"` (no rule named), while a storage
failure interpolates the exception text into the 500 body
(`f"Error while saving to DB: {e}"`), leaking the internal detail. -/
theorem C9_response_counterexample :
    (patient_form
      { full_name := "A", dob := "1990-01-01", email := "a@b.com",
        phone := "555-0101", address := "1 Main St", mrn := "MRN001",
        diagnosis := "Cold", insurance := "INS-1", card := "4111",
        amount := "10" } [] 1 1 none "").1 =
      .invalidInput "Invalid input" 400 ∧
    (patient_form
      { full_name := "Ann Lee", dob := "1990-01-01", email := "nodomain",
        phone := "555-0101", address := "1 Main St", mrn := "MRN001",
        diagnosis := "Cold", insurance := "INS-1", card := "4111",
        amount := "10" } [] 1 1 none "").1 =
      .invalidInput "Invalid input" 400 ∧
    (patient_form
      { full_name := "Ann Lee", dob := "1990-01-01", email := "a@b.com",
        phone := "555-0101", address := "1 Main St", mrn := "MRN001",
        diagnosis := "Cold", insurance := "INS-1", card := "4111",
        amount := "10" } [] 1 1 (some 2)
      "1054 Unknown column diagnosis_enc in field list").1 =
      .serverError
        "Error while saving to DB: 1054 Unknown column diagnosis_enc in field list"
        500 :=
  ⟨rfl, rfl, rfl⟩

/-- C9 amended.  Invalid form input is rejected with the fixed generic
body `"Invalid input"` and status 400, independent of which rule was
violated; a storage failure is answered with status 500 and a body that
embeds the internal exception text after
`"Error while saving to DB: "`. -/
theorem C9_amended_responses (f : IntakeForm) (ivs : List (List Nat))
    (pid bid : Nat) (failMsg : String) (k : Nat) :
    (intakeInvalid f = true →
      (patient_form f ivs pid bid (some k) failMsg).1 =
        .invalidInput "Invalid input" 400 ∧
      (patient_form f ivs pid bid none failMsg).1 =
        .invalidInput "Invalid input" 400) ∧
    (intakeInvalid f = false →
      (patient_form f ivs pid bid (some k) failMsg).1 =
        .serverError (String.append "Error while saving to DB: " failMsg)
          500) := by
  constructor
  · intro h
    constructor <;> simp [patient_form, h]
  · intro h
    simp [patient_form, h]

/-- C9 amended witness: a concrete invalid form and a concrete injected
store failure. -/
theorem C9_amended_responses_witness :
    ((patient_form
      { full_name := "A", dob := "1990-01-01", email := "a@b.com",
        phone := "555-0101", address := "1 Main St", mrn := "MRN001",
        diagnosis := "Cold", insurance := "INS-1", card := "4111",
        amount := "10" } [] 1 1 (some 0) "x").1 =
        .invalidInput "Invalid input" 400 ∧
      (patient_form
      { full_name := "A", dob := "1990-01-01", email := "a@b.com",
        phone := "555-0101", address := "1 Main St", mrn := "MRN001",
        diagnosis := "Cold", insurance := "INS-1", card := "4111",
        amount := "10" } [] 1 1 none "x").1 =
        .invalidInput "Invalid input" 400) ∧
    (patient_form
      { full_name := "Ann Lee", dob := "1990-01-01", email := "a@b.com",
        phone := "555-0101", address := "1 Main St", mrn := "MRN001",
        diagnosis := "Cold", insurance := "INS-1", card := "4111",
        amount := "10" } [] 1 1 (some 0) "boom").1 =
      .serverError (String.append "Error while saving to DB: " "boom")
        500 :=
  ⟨(C9_amended_responses _ [] 1 1 "x" 0).1 rfl,
   (C9_amended_responses _ [] 1 1 "boom" 0).2 rfl⟩

/-- C5 counterexample.  In `insert_comprehensive_dummy_data` the staff
and patient rows are committed one by one inside `insert_staff_data` /
`insert_patient_data`; the satellite rows are only committed at the end.
If the first `Patient_Sensitive` INSERT (step 18 of the flow) raises,
the committed state keeps the Patient rows and holds no
`Patient_Sensitive` row: exactly the patient-without-satellite
half-state the claim says can never become visible. -/
theorem C5_seed_half_state_counterexample :
    "Patient" ∈ runOps dummy_ops (some 18) ∧
    "Patient_Sensitive" ∉ runOps dummy_ops (some 18) ∧
    runOps dummy_ops (some 18) ≠ [] := by
  decide

/-- C5 amended.  The form handler's five-row unit is atomic — a failure
at any of its steps up to and including the final commit publishes
nothing, and the failure-free run publishes exactly the five rows — and
the final seed transaction is atomic, but the seed flow commits each
staff and patient row individually, so a failure at any later step
leaves the five Staff and four Patient rows committed with none of
their satellite rows. -/
theorem C5_amended_atomicity :
    (∀ (f : IntakeForm) (ivs : List (List Nat)) (pid bid : Nat)
        (failMsg : String) (k : Nat), k ≤ 5 →
      (patient_form f ivs pid bid (some k) failMsg).2 = []) ∧
    (∀ (f : IntakeForm) (ivs : List (List Nat)) (pid bid : Nat)
        (failMsg : String), intakeInvalid f = false →
      (patient_form f ivs pid bid none failMsg).2 =
        [.patientsW
          { full_name := f.full_name, dob := f.dob, email := f.email,
            phone := f.phone, address := f.address },
         .medicalW
          { patient_id := pid
            mrn_enc := encrypt_value (ivs.getD 0 []) (strBytes f.mrn)
            diagnosis_enc :=
              encrypt_value (ivs.getD 1 []) (strBytes f.diagnosis) },
         .insuranceW
          { patient_id := pid
            insurance_policy_enc :=
              encrypt_value (ivs.getD 2 []) (strBytes f.insurance)
            provider_name := "Unknown" },
         .billingW
          { patient_id := pid, amount := f.amount, status := "PENDING" },
         .paymentsW
          { billing_id := bid
            card_number_enc :=
              encrypt_value (ivs.getD 3 []) (strBytes f.card) }]) ∧
    (∀ k < 44, 18 ≤ k → runOps dummy_ops (some k) =
      List.replicate 5 "Staff" ++ List.replicate 4 "Patient") := by
  refine ⟨?_, ?_, by decide⟩
  · intro f ivs pid bid failMsg k hk
    cases hb : intakeInvalid f with
    | true => simp [patient_form, hb]
    | false =>
      simp only [patient_form, hb, Bool.false_eq_true, if_false]
      interval_cases k <;> rfl
  · intro f ivs pid bid failMsg h
    simp only [patient_form, h, Bool.false_eq_true, if_false]
    rfl

/-- C5 amended witness: a failure at step 3 of the handler flow
publishes nothing; a failure at step 20 of the seed flow leaves exactly
the staff and patient rows committed; the failure-free handler run
publishes its five rows. -/
theorem C5_amended_atomicity_witness :
    (patient_form
      { full_name := "Ann Lee", dob := "1990-01-01", email := "a@b.com",
        phone := "555-0101", address := "1 Main St", mrn := "MRN001",
        diagnosis := "Cold", insurance := "INS-1", card := "4111",
        amount := "10" } [] 1 1 (some 3) "boom").2 = [] ∧
    runOps dummy_ops (some 20) =
      List.replicate 5 "Staff" ++ List.replicate 4 "Patient" ∧
    (patient_form
      { full_name := "Ann Lee", dob := "1990-01-01", email := "a@b.com",
        phone := "555-0101", address := "1 Main St", mrn := "MRN001",
        diagnosis := "Cold", insurance := "INS-1", card := "4111",
        amount := "10" } [] 1 1 none "").2 =
      [.patientsW
        { full_name := "Ann Lee", dob := "1990-01-01",
          email := "a@b.com", phone := "555-0101",
          address := "1 Main St" },
       .medicalW
        { patient_id := 1, mrn_enc := encrypt_value [] (strBytes "MRN001"),
          diagnosis_enc := encrypt_value [] (strBytes "Cold") },
       .insuranceW
        { patient_id := 1,
          insurance_policy_enc := encrypt_value [] (strBytes "INS-1"),
          provider_name := "Unknown" },
       .billingW { patient_id := 1, amount := "10", status := "PENDING" },
       .paymentsW
        { billing_id := 1,
          card_number_enc := encrypt_value [] (strBytes "4111") }] :=
  ⟨C5_amended_atomicity.1 _ [] 1 1 "boom" 3 (by decide),
   C5_amended_atomicity.2.2 20 (by decide) (by decide),
   C5_amended_atomicity.2.1 _ [] 1 1 "" rfl⟩

/-! ## Repository round-trip helpers -/

theorem find?_append_fresh (l : List PatientRow) (row : PatientRow)
    (pid : Nat) (hrow : row.patient_id = pid)
    (h : ∀ r ∈ l, r.patient_id ≠ pid) :
    (l ++ [row]).find? (fun r => r.patient_id == pid) = some row := by
  induction l with
  | nil => simp [List.find?, hrow]
  | cons a l ih =>
    have ha : (a.patient_id == pid) = false :=
      beq_eq_false_iff_ne.mpr (h a (List.mem_cons_self a l))
    simp only [List.cons_append, List.find?_cons, ha]
    exact ih (fun r hr => h r (List.mem_cons_of_mem a hr))

/-- `decrypt_data` inverts `encrypt_data` under the process key: an
envelope is never the empty column, so the decryption path runs and
recovers the plaintext. -/
theorem decrypt_encrypt_data (iv p : List Nat) (hlen : iv.length = 12)
    (hiv : ∀ b ∈ iv, b < 256) (hp : ∀ b ∈ p, b < 256) :
    decrypt_data (encrypt_data iv p) = .ok p := by
  unfold decrypt_data encrypt_data
  rw [if_neg
    (show encrypt_value iv p ≠ [] from
      encryptCore_ne_nil get_aes_key iv p hlen)]
  exact decryptCore_encryptCore get_aes_key iv p hlen hiv hp

/-- The committed writes of a valid, failure-free form submission, in
source order. -/
theorem patient_form_success_writes (f : IntakeForm)
    (ivs : List (List Nat)) (pid bid : Nat) (m : String)
    (h : intakeInvalid f = false) :
    (patient_form f ivs pid bid none m).2 =
      [.patientsW
        { full_name := f.full_name, dob := f.dob, email := f.email,
          phone := f.phone, address := f.address },
       .medicalW
        { patient_id := pid
          mrn_enc := encrypt_value (ivs.getD 0 []) (strBytes f.mrn)
          diagnosis_enc :=
            encrypt_value (ivs.getD 1 []) (strBytes f.diagnosis) },
       .insuranceW
        { patient_id := pid
          insurance_policy_enc :=
            encrypt_value (ivs.getD 2 []) (strBytes f.insurance)
          provider_name := "Unknown" },
       .billingW
        { patient_id := pid, amount := f.amount, status := "PENDING" },
       .paymentsW
        { billing_id := bid
          card_number_enc :=
            encrypt_value (ivs.getD 3 []) (strBytes f.card) }] := by
  simp only [patient_form, h, Bool.false_eq_true, if_false]
  rfl

/-- C6.  Each tracked mutation — an UPDATE on `Patient`,
`Patient_Sensitive`, `Billing` or `Payment_Methods` that matches a row,
or an INSERT into `Payment_Transactions` — appends exactly one new
`Audit_Log` row in the same transaction, keyed by the mutated row's
primary key, whose old/new data snapshot that table's tracked field
subset; the rows already in the log are left untouched (never deleted
or rewritten). -/
theorem C6_audit_triggers :
    (∀ (db : HospitalDB) (pid : Nat) (fn ln dob g : String)
        (old : PatientRow),
      db.patients.find? (fun r => r.patient_id == pid) = some old →
      (update_patient db pid fn ln dob g).audit = db.audit ++ [{
        table_name := "Patient", record_id := old.patient_id,
        action := "UPDATE", changed_by := "SYSTEM",
        old_data := some (.patientData old.first_name old.last_name
          old.dob old.gender),
        new_data := some (.patientData fn ln dob g) }]) ∧
    (∀ (db : HospitalDB) (sid : Nat) (last4 : String)
        (old : SensitiveRow),
      db.sensitive.find? (fun r => r.sensitive_id == sid) = some old →
      (update_patient_sensitive db sid last4).audit = db.audit ++ [{
        table_name := "Patient_Sensitive", record_id := old.sensitive_id,
        action := "UPDATE", changed_by := "SYSTEM",
        old_data := some (.sensitiveData old.card_last4),
        new_data := some (.sensitiveData last4) }]) ∧
    (∀ (db : HospitalDB) (bid total paid : Nat) (status : String)
        (old : BillingRow),
      db.billing.find? (fun r => r.billing_id == bid) = some old →
      (update_billing db bid total paid status).audit = db.audit ++ [{
        table_name := "Billing", record_id := old.billing_id,
        action := "UPDATE", changed_by := "SYSTEM",
        old_data := some (.billingData old.total_amount old.paid_amount
          old.status),
        new_data := some (.billingData total paid status) }]) ∧
    (∀ (db : HospitalDB) (mid : Nat) (ptype last4 : String)
        (isDefault : Bool) (old : PayMethodRow),
      db.paymethods.find? (fun r => r.payment_method_id == mid) =
        some old →
      (update_payment_method db mid ptype last4 isDefault).audit =
        db.audit ++ [{
          table_name := "Payment_Methods",
          record_id := old.payment_method_id,
          action := "UPDATE", changed_by := "SYSTEM",
          old_data := some (.payMethodData old.ptype old.last4
            old.is_default),
          new_data := some (.payMethodData ptype last4 isDefault) }]) ∧
    (∀ (db : HospitalDB) (bid pid : Nat) (pm : Option Nat) (amount : Nat)
        (status note : String),
      (insert_payment_transaction db bid pid pm amount status note).audit =
        db.audit ++ [{
          table_name := "Payment_Transactions",
          record_id := nextId (db.paytx.map (·.payment_id)),
          action := "INSERT", changed_by := "SYSTEM",
          old_data := none,
          new_data := some (.payTxData bid pid amount status) }]) := by
  refine ⟨?_, ?_, ?_, ?_, ?_⟩
  · intro db pid fn ln dob g old h
    simp [update_patient, h]
  · intro db sid last4 old h
    simp [update_patient_sensitive, h]
  · intro db bid total paid status old h
    simp [update_billing, h]
  · intro db mid ptype last4 isDefault old h
    simp [update_payment_method, h]
  · intro db bid pid pm amount status note
    simp [insert_payment_transaction]

/-- One row in each tracked table, used to exercise the triggers. -/
def sampleDB : HospitalDB where
  patients := [⟨1, "Ann", "Lee", "1990-01-01", "F", [], [], [], [], none⟩]
  sensitive := [⟨1, 1, [], [], [], "1234"⟩]
  billing := [⟨1, 1, 30000, 0, "Pending"⟩]
  paymethods := [⟨1, 1, "CARD", "4567", [], true⟩]
  paytx := []
  audit := []

/-- C6 witness: each trigger fired once against `sampleDB`. -/
theorem C6_audit_triggers_witness :
    (update_patient sampleDB 1 "Bea" "Kim" "1991-02-02" "F").audit = [{
      table_name := "Patient", record_id := 1, action := "UPDATE",
      changed_by := "SYSTEM",
      old_data := some (.patientData "Ann" "Lee" "1990-01-01" "F"),
      new_data := some (.patientData "Bea" "Kim" "1991-02-02" "F") }] ∧
    (update_patient_sensitive sampleDB 1 "9999").audit = [{
      table_name := "Patient_Sensitive", record_id := 1,
      action := "UPDATE", changed_by := "SYSTEM",
      old_data := some (.sensitiveData "1234"),
      new_data := some (.sensitiveData "9999") }] ∧
    (update_billing sampleDB 1 30000 30000 "Paid").audit = [{
      table_name := "Billing", record_id := 1, action := "UPDATE",
      changed_by := "SYSTEM",
      old_data := some (.billingData 30000 0 "Pending"),
      new_data := some (.billingData 30000 30000 "Paid") }] ∧
    (update_payment_method sampleDB 1 "BANK" "8888" false).audit = [{
      table_name := "Payment_Methods", record_id := 1,
      action := "UPDATE", changed_by := "SYSTEM",
      old_data := some (.payMethodData "CARD" "4567" true),
      new_data := some (.payMethodData "BANK" "8888" false) }] ∧
    (insert_payment_transaction sampleDB 1 1 (some 1) 30000 "Posted"
      "Full payment").audit = [{
      table_name := "Payment_Transactions", record_id := 1,
      action := "INSERT", changed_by := "SYSTEM", old_data := none,
      new_data := some (.payTxData 1 1 30000 "Posted") }] :=
  ⟨C6_audit_triggers.1 sampleDB 1 "Bea" "Kim" "1991-02-02" "F"
     ⟨1, "Ann", "Lee", "1990-01-01", "F", [], [], [], [], none⟩ rfl,
   C6_audit_triggers.2.1 sampleDB 1 "9999" ⟨1, 1, [], [], [], "1234"⟩ rfl,
   C6_audit_triggers.2.2.1 sampleDB 1 30000 30000 "Paid"
     ⟨1, 1, 30000, 0, "Pending"⟩ rfl,
   C6_audit_triggers.2.2.2.1 sampleDB 1 "BANK" "8888" false
     ⟨1, 1, "CARD", "4567", [], true⟩ rfl,
   C6_audit_triggers.2.2.2.2 sampleDB 1 1 (some 1) 30000 "Posted"
     "Full payment"⟩

/-- C1 counterexample.  The claim extends envelope storage to "every
write path of the system, including the intake form handler", but the
handler's first INSERT stores `full_name`, `dob`, `email`, `phone` and
`address` in its `patients` table as the submitted plaintext: the
committed row below carries the raw plaintext email and phone, equal to
the submitted values, not an encrypted envelope. -/
theorem C1_plaintext_pii_counterexample :
    (patient_form
      { full_name := "Ann Lee", dob := "1990-01-01", email := "a@b.com",
        phone := "555-0101", address := "1 Main St", mrn := "MRN001",
        diagnosis := "Cold", insurance := "INS-1", card := "4111",
        amount := "10" } [] 1 1 none "").2.head? =
      some (.patientsW
        { full_name := "Ann Lee", dob := "1990-01-01", email := "a@b.com",
          phone := "555-0101", address := "1 Main St" }) := rfl

/-- C1 amended, part 1: the repository round trip.  Inserting through
`insert_patient_data` and reading back through `get_patient_data` by
the returned identifier yields exactly the original plaintext values of
phone, email, ssn and state id. -/
theorem get_insert_patient (db : HospitalDB) (pd : PatientData)
    (iv0 iv1 iv2 iv3 : List Nat)
    (h0 : iv0.length = 12) (h1 : iv1.length = 12) (h2 : iv2.length = 12)
    (h3 : iv3.length = 12)
    (hb0 : ∀ b ∈ iv0, b < 256) (hb1 : ∀ b ∈ iv1, b < 256)
    (hb2 : ∀ b ∈ iv2, b < 256) (hb3 : ∀ b ∈ iv3, b < 256)
    (hp0 : ∀ b ∈ pd.phone_number, b < 256) (hp1 : ∀ b ∈ pd.email, b < 256)
    (hp2 : ∀ b ∈ pd.ssn, b < 256) (hp3 : ∀ b ∈ pd.state_id, b < 256) :
    get_patient_data (insert_patient_data db [iv0, iv1, iv2, iv3] pd).1
        (insert_patient_data db [iv0, iv1, iv2, iv3] pd).2 =
      some (.ok
        { patient_id := (insert_patient_data db [iv0, iv1, iv2, iv3] pd).2
          first_name := pd.first_name
          last_name := pd.last_name
          dob := pd.dob
          gender := pd.gender
          phone_number := pd.phone_number
          email := pd.email
          ssn := pd.ssn
          state_id := pd.state_id
          primary_doctor_id := pd.primary_doctor_id }) := by
  have hfresh : ∀ r ∈ db.patients,
      r.patient_id ≠ nextId (db.patients.map (·.patient_id)) :=
    fun r hr => Nat.ne_of_lt (lt_nextId _ _ (List.mem_map_of_mem _ hr))
  show get_patient_data
      { db with patients :=
          db.patients ++ [insertedRow db [iv0, iv1, iv2, iv3] pd] }
      (nextId (db.patients.map (·.patient_id))) = _
  unfold get_patient_data
  dsimp only
  rw [find?_append_fresh db.patients (insertedRow db [iv0, iv1, iv2, iv3] pd)
    (nextId (db.patients.map (·.patient_id))) (by rfl) hfresh]
  simp only [insertedRow, List.getD_cons_zero, List.getD_cons_succ]
  rw [decrypt_encrypt_data iv0 pd.phone_number h0 hb0 hp0,
    decrypt_encrypt_data iv1 pd.email h1 hb1 hp1,
    decrypt_encrypt_data iv2 pd.ssn h2 hb2 hp2,
    decrypt_encrypt_data iv3 pd.state_id h3 hb3 hp3]
  rfl

/-- C1 amended.  Through the repository, every inserted patient record
reads back by its returned identifier with exactly the original
plaintext sensitive values, and the stored column value — the base64
envelope `encrypt_data` produces — is never equal to the plaintext; the
intake form handler, however, commits the `patients` row with the
submitted `full_name`, `dob`, `email`, `phone` and `address` as
plaintext (only mrn, diagnosis, insurance and card number are stored
encrypted on that path). -/
theorem C1_amended_envelope_storage :
    (∀ (db : HospitalDB) (pd : PatientData) (iv0 iv1 iv2 iv3 : List Nat),
      iv0.length = 12 → iv1.length = 12 → iv2.length = 12 →
      iv3.length = 12 →
      (∀ b ∈ iv0, b < 256) → (∀ b ∈ iv1, b < 256) →
      (∀ b ∈ iv2, b < 256) → (∀ b ∈ iv3, b < 256) →
      (∀ b ∈ pd.phone_number, b < 256) → (∀ b ∈ pd.email, b < 256) →
      (∀ b ∈ pd.ssn, b < 256) → (∀ b ∈ pd.state_id, b < 256) →
      get_patient_data (insert_patient_data db [iv0, iv1, iv2, iv3] pd).1
          (insert_patient_data db [iv0, iv1, iv2, iv3] pd).2 =
        some (.ok
          { patient_id :=
              (insert_patient_data db [iv0, iv1, iv2, iv3] pd).2
            first_name := pd.first_name
            last_name := pd.last_name
            dob := pd.dob
            gender := pd.gender
            phone_number := pd.phone_number
            email := pd.email
            ssn := pd.ssn
            state_id := pd.state_id
            primary_doctor_id := pd.primary_doctor_id })) ∧
    (∀ iv p : List Nat, iv.length = 12 → encrypt_data iv p ≠ p) ∧
    (∀ (f : IntakeForm) (ivs : List (List Nat)) (pid bid : Nat)
        (m : String), intakeInvalid f = false →
      AppWrite.patientsW
        { full_name := f.full_name, dob := f.dob, email := f.email,
          phone := f.phone, address := f.address } ∈
        (patient_form f ivs pid bid none m).2) := by
  refine ⟨?_, ?_, ?_⟩
  · intro db pd iv0 iv1 iv2 iv3 h0 h1 h2 h3 hb0 hb1 hb2 hb3 hp0 hp1 hp2 hp3
    exact get_insert_patient db pd iv0 iv1 iv2 iv3 h0 h1 h2 h3 hb0 hb1
      hb2 hb3 hp0 hp1 hp2 hp3
  · intro iv p hlen
    exact encryptCore_ne_plaintext get_aes_key iv p hlen
  · intro f ivs pid bid m h
    rw [patient_form_success_writes f ivs pid bid m h]
    exact List.mem_cons_self _ _

/-- C1 amended witness: a concrete insert and read-back, the
envelope-vs-plaintext inequality at a concrete field, and the
handler's plaintext patients row for a concrete submission. -/
theorem C1_amended_envelope_storage_witness :
    get_patient_data
        (insert_patient_data ⟨[], [], [], [], [], []⟩
          [List.range 12, List.replicate 12 1, List.replicate 12 2,
           List.replicate 12 3]
          { first_name := "Ann", last_name := "Lee", dob := "1990-01-01",
            gender := "F", phone_number := [53, 53, 53],
            email := [97, 64, 98], ssn := [49, 50, 51],
            state_id := [84, 88], primary_doctor_id := none }).1
        (insert_patient_data ⟨[], [], [], [], [], []⟩
          [List.range 12, List.replicate 12 1, List.replicate 12 2,
           List.replicate 12 3]
          { first_name := "Ann", last_name := "Lee", dob := "1990-01-01",
            gender := "F", phone_number := [53, 53, 53],
            email := [97, 64, 98], ssn := [49, 50, 51],
            state_id := [84, 88], primary_doctor_id := none }).2 =
      some (.ok
        { patient_id :=
            (insert_patient_data ⟨[], [], [], [], [], []⟩
              [List.range 12, List.replicate 12 1, List.replicate 12 2,
               List.replicate 12 3]
              { first_name := "Ann", last_name := "Lee",
                dob := "1990-01-01", gender := "F",
                phone_number := [53, 53, 53], email := [97, 64, 98],
                ssn := [49, 50, 51], state_id := [84, 88],
                primary_doctor_id := none }).2
          first_name := "Ann", last_name := "Lee", dob := "1990-01-01",
          gender := "F", phone_number := [53, 53, 53],
          email := [97, 64, 98], ssn := [49, 50, 51],
          state_id := [84, 88], primary_doctor_id := none }) ∧
    encrypt_data (List.range 12) [53, 53, 53] ≠ [53, 53, 53] ∧
    AppWrite.patientsW
      { full_name := "Ann Lee", dob := "1990-01-01", email := "a@b.com",
        phone := "555-0101", address := "1 Main St" } ∈
      (patient_form
        { full_name := "Ann Lee", dob := "1990-01-01", email := "a@b.com",
          phone := "555-0101", address := "1 Main St", mrn := "MRN001",
          diagnosis := "Cold", insurance := "INS-1", card := "4111",
          amount := "10" } [] 1 1 none "").2 :=
  ⟨C1_amended_envelope_storage.1 ⟨[], [], [], [], [], []⟩
      { first_name := "Ann", last_name := "Lee", dob := "1990-01-01",
        gender := "F", phone_number := [53, 53, 53],
        email := [97, 64, 98], ssn := [49, 50, 51], state_id := [84, 88],
        primary_doctor_id := none }
      (List.range 12) (List.replicate 12 1) (List.replicate 12 2)
      (List.replicate 12 3) (by decide) (by decide) (by decide)
      (by decide) (by decide) (by decide) (by decide) (by decide)
      (by decide) (by decide) (by decide) (by decide),
   C1_amended_envelope_storage.2.1 (List.range 12) [53, 53, 53]
     (by decide),
   C1_amended_envelope_storage.2.2 _ [] 1 1 "" (by decide)⟩

end Hospital
